import Mathlib

/-!
Verification of the core logic of `uiu-auto-section-selection`.

The development shallowly embeds the three Rust source files:
* `src/main.rs` — the per-course selection/polling task `auto_select_section`
  and the orchestration loop in `main`;
* `src/ucam_cloud_api.rs` — the data model (`CourseSection`, `CourseSections`,
  `SectionActionRequest`); the network calls themselves are modelled as
  oracles (scripts of results) supplied to the embedded control flow;
* `src/macros.rs` — the `concat_bytes` const function and the `concat_sstr!`
  macro.

Rust `String`s are modelled as `List Char`; `usize`/`u64` as `Nat` (no
arithmetic in the program can overflow-wrap in a way any claim depends on);
`anyhow::Result<T>` as `Except (List Char) T` with the error rendered as its
display text, which is all `main` ever inspects.
-/

namespace UiuAutoSelect

/-! ### Strings: ASCII lowercasing and substring containment

`str::to_ascii_lowercase` lowercases the ASCII letters and leaves every other
character unchanged; `str::contains` is substring containment (an empty needle
is always found).  `String::to_lowercase` as used in `main` is modelled by the
same ASCII lowercasing: the only needle it is ever compared against
("invalid token") is ASCII. -/

def asciiLowerChar (c : Char) : Char :=
  if 65 ≤ c.toNat ∧ c.toNat ≤ 90 then Char.ofNat (c.toNat + 32) else c

def toAsciiLowercase (s : List Char) : List Char :=
  s.map asciiLowerChar

/-- Substring containment: `strContains hay pat` is `hay.contains(pat)`. -/
def strContains (hay pat : List Char) : Bool :=
  (List.range (hay.length + 1)).any fun i => pat.isPrefixOf (hay.drop i)

/-! ### Data model (from `src/ucam_cloud_api.rs`) -/

/-- `CourseSection` of `ucam_cloud_api.rs`. -/
structure CourseSection where
  section_id : Nat
  section_name : List Char
  total_seats : Nat
  seats_taken : Nat
  is_enrolled : Bool
  faculty_name : List Char
  faculty_email : List Char
deriving Repr, DecidableEq

/-- `CourseSections` of `ucam_cloud_api.rs`; the two `DateTime` fields are
modelled as abstract timestamps. -/
structure CourseSections where
  course_code : List Char
  course_name : List Char
  sections : List CourseSection
  selection_open : Bool
  running_session : List Char
  credits : Nat
  section_selection_start_time : Nat
  section_selection_end_time : Nat
deriving Repr, DecidableEq

/-- `SectionActionRequest` of `ucam_cloud_api.rs`. -/
structure SectionActionRequest where
  section_id : Nat
  action : List Char
  parent_course_code : List Char
deriving Repr, DecidableEq

/-! ### Section selector (the decision logic of `auto_select_section`,
`src/main.rs` lines 52–85) -/

/-- The predicate of the already-enrolled check, `main.rs` lines 56–62:
`s.is_enrolled && preferred.iter().any(|ps| ps.to_ascii_lowercase().contains(&s.section_name.to_ascii_lowercase()))`.
Note the direction: the preference string is the haystack and the section
name the needle. -/
def enrolledMatch (preferred_sections : List (List Char)) (s : CourseSection) : Bool :=
  s.is_enrolled &&
    preferred_sections.any fun ps =>
      strContains (toAsciiLowercase ps) (toAsciiLowercase s.section_name)

/-- The predicate of the open-section search, `main.rs` lines 72–77:
`s.section_name.to_ascii_lowercase().contains(&preferred_lower) && s.seats_taken < s.total_seats`. -/
def sectionOpenMatch (preferred : List Char) (s : CourseSection) : Bool :=
  strContains (toAsciiLowercase s.section_name) (toAsciiLowercase preferred) &&
    decide (s.seats_taken < s.total_seats)

/-- The `for preferred in preferred_sections` loop of `main.rs` lines 69–81:
preferences are scanned in rank order and for the first one with a match the
first matching open section (snapshot order) is chosen. -/
def findPreferredSection (preferred_sections : List (List Char))
    (sections : List CourseSection) : Option Nat :=
  match preferred_sections with
  | [] => none
  | p :: rest =>
    match sections.find? (sectionOpenMatch p) with
    | some s => some s.section_id
    | none => findPreferredSection rest sections

/-- Outcome of one iteration of the loop body of `auto_select_section`. -/
inductive Decision where
  | noSectionsYet
  | alreadyEnrolled
  | sectionChosen (section_id : Nat)
  | noAcceptable
deriving Repr, DecidableEq

/-- The decision taken by one iteration of the loop of `auto_select_section`
(`main.rs` lines 52–85) on a fetched snapshot. -/
def auto_select_decide (sections : List CourseSection)
    (preferred_sections : List (List Char)) : Decision :=
  if sections.isEmpty then .noSectionsYet
  else if sections.any (enrolledMatch preferred_sections) then .alreadyEnrolled
  else
    match findPreferredSection preferred_sections sections with
    | some section_id => .sectionChosen section_id
    | none => .noAcceptable

/-! ### The course enrollment task (`auto_select_section`, `main.rs` lines 39–98)

The network is modelled as a script: a list of results for the successive
`fetch_course_sections` calls, plus an oracle giving the result of
`post_course_action` for a given request.  Each loop iteration consumes one
entry of the fetch script; when the script runs out the task is still
looping (`TaskOutcome.running`). -/

instance {ε α : Type _} [DecidableEq ε] [DecidableEq α] :
    DecidableEq (Except ε α) := fun x y =>
  match x, y with
  | .ok a, .ok b =>
    if h : a = b then isTrue (by rw [h])
    else isFalse (by intro hc; cases hc; exact h rfl)
  | .ok _, .error _ => isFalse (by intro hc; cases hc)
  | .error _, .ok _ => isFalse (by intro hc; cases hc)
  | .error a, .error b =>
    if h : a = b then isTrue (by rw [h])
    else isFalse (by intro hc; cases hc; exact h rfl)

/-- Observable actions of one task, in order of occurrence.  A `submit`
event records the request posted and the result the service returned,
which the code prints in its status line. -/
inductive Event where
  | fetch
  | sleepSecs (n : Nat)
  | submit (req : SectionActionRequest) (result : Except (List Char) Unit)
deriving Repr, DecidableEq

/-- How the task ended: returned `Ok(())`, returned `Err(e)` (only the `?`
on the fetch can do this), or is still in its loop when the fetch script
ran out. -/
inductive TaskOutcome where
  | ok
  | err (e : List Char)
  | running
deriving Repr, DecidableEq

/-- The body of `auto_select_section` (`main.rs` lines 49–97): loop over the
fetch script, and on a chosen section submit once and return `Ok(())` —
the submit result is only logged (`main.rs` lines 91–96), never propagated. -/
def auto_select_section (course_code : List Char)
    (preferred_sections : List (List Char))
    (submitRes : SectionActionRequest → Except (List Char) Unit) :
    List (Except (List Char) CourseSections) → List Event × TaskOutcome
  | [] => ([], .running)
  | f :: rest =>
    match f with
    | .error e => ([.fetch], .err e)
    | .ok course_info =>
      match auto_select_decide course_info.sections preferred_sections with
      | .noSectionsYet =>
        let r := auto_select_section course_code preferred_sections submitRes rest
        (.fetch :: .sleepSecs 1 :: r.1, r.2)
      | .alreadyEnrolled => ([.fetch], .ok)
      | .sectionChosen section_id =>
        let action : SectionActionRequest :=
          ⟨section_id, "select".toList, course_code⟩
        ([.fetch, .submit action (submitRes action)], .ok)
      | .noAcceptable =>
        let r := auto_select_section course_code preferred_sections submitRes rest
        (.fetch :: .sleepSecs 10 :: r.1, r.2)

/-- Recogniser for submit events. -/
def isSubmitEvent : Event → Bool
  | .submit _ _ => true
  | _ => false

/-! ### The orchestrator (`main`, `main.rs` lines 100–178) -/

/-- The needle of the restart check: "invalid token". -/
def invalidTokenPat : List Char :=
  "invalid token".toList

/-- One task result's contribution to the restart flag, `main.rs` line 167:
`format!("{e}").to_lowercase().contains("invalid token")` on errors,
nothing on successes. -/
def taskErrInvalidToken : Except (List Char) Unit → Bool
  | .error e => strContains (toAsciiLowercase e) invalidTokenPat
  | .ok _ => false

/-- The `restart` accumulation of `main.rs` lines 163–169: a fold of
`restart |= ...` starting from `false` over the joined results. -/
def shouldRestart (results : List (Except (List Char) Unit)) : Bool :=
  results.foldl (fun restart r => restart || taskErrInvalidToken r) false

/-- The spawn/skip decision of `main.rs` lines 143–161. -/
inductive SpawnAction where
  | skipLog (course_code : List Char)
  | spawnTask (course_code : List Char) (preferred_sections : List (List Char))
deriving Repr, DecidableEq

/-- `preferred_sections.get(&code).cloned().unwrap_or_default()`
(`main.rs` lines 144–147); the static `HashMap` is modelled as an
association list with unique keys. -/
def lookupPreferred (prefMap : List (List Char × List (List Char)))
    (course_code : List Char) : List (List Char) :=
  (prefMap.lookup course_code).getD []

/-- The per-course loop of `main.rs` lines 143–161: a skip log line for an
empty/absent preference list, otherwise one spawned task carrying the
course code and its preference list. -/
def spawnPlan (prefMap : List (List Char × List (List Char)))
    (courses : List (List Char)) : List SpawnAction :=
  courses.map fun course_code =>
    let preferred := lookupPreferred prefMap course_code
    if preferred.isEmpty then .skipLog course_code
    else .spawnTask course_code preferred

/-- The external results one cycle of `main`'s loop observes: the
`login_client` result, the `fetch_preadvised_courses` result, and the
results the spawned tasks deliver to `join_all`. -/
structure CycleEnv where
  loginRes : Except (List Char) Unit
  preadvisedRes : Except (List Char) (List (List Char))
  taskResults : List (Except (List Char) Unit)
deriving Repr, DecidableEq

/-- How the `main` process ended: `Ok(())` via `break`, with an error
propagated by a `?` in the loop, or still cycling when the script of cycle
environments ran out. -/
inductive MainOutcome where
  | ok
  | fatal (e : List Char)
  | running
deriving Repr, DecidableEq

/-- The loop of `main` (`main.rs` lines 135–175): `login_client(..)?`, then
`fetch_preadvised_courses(..)?`, then join the tasks and either `continue`
(restart) or `break`. -/
def runMain : List CycleEnv → MainOutcome
  | [] => .running
  | env :: rest =>
    match env.loginRes with
    | .error e => .fatal e
    | .ok _ =>
      match env.preadvisedRes with
      | .error e => .fatal e
      | .ok _ =>
        if shouldRestart env.taskResults then runMain rest else .ok

/-! ### `src/macros.rs`: `concat_bytes` and `concat_sstr!`

A Rust `[u8; LEN]` is modelled as a `List Nat` of length `LEN`; an
out-of-bounds array write — which in the const context of the macro is a
compile-time panic — is modelled by `none`. -/

/-- Array write `bytes[i] = v`, `none` when `i` is out of bounds. -/
def setAt (bytes : List Nat) (i : Nat) (v : Nat) : Option (List Nat) :=
  if i < bytes.length then some (bytes.set i v) else none

/-- One of the two `while` loops of `concat_bytes` (`macros.rs` lines
16–24): write the elements of `src` into `bytes` starting at index
`start`. -/
def writeFrom (bytes : List Nat) (src : List Nat) (start : Nat) :
    Option (List Nat) :=
  match src with
  | [] => some bytes
  | v :: rest =>
    match setAt bytes start v with
    | some b => writeFrom b rest (start + 1)
    | none => none

/-- `concat_bytes::<LEN>(a, b)` (`macros.rs` lines 13–27): a zero-filled
array of length `LEN`, `a` written at offset 0, then `b` written at offset
`a.len()`. -/
def concat_bytes (LEN : Nat) (a b : List Nat) : Option (List Nat) :=
  match writeFrom (List.replicate LEN 0) a 0 with
  | some bytes => writeFrom bytes b a.length
  | none => none

/-- The `concat_sstr!` macro (`macros.rs` lines 1–10): `concat_bytes` at
`LEN = a.len() + b.len()` on the bytes of the two constant strings. -/
def concat_sstr (a b : List Nat) : Option (List Nat) :=
  concat_bytes (a.length + b.length) a b

/-- Standard UTF-8 encoding of a Unicode scalar value as a byte list. -/
def utf8EncodeCp (c : Nat) : List Nat :=
  if c < 128 then [c]
  else if c < 2048 then
    [192 + c / 64, 128 + c % 64]
  else if c < 65536 then
    [224 + c / 4096, 128 + (c / 64) % 64, 128 + c % 64]
  else
    [240 + c / 262144, 128 + (c / 4096) % 64, 128 + (c / 64) % 64,
     128 + c % 64]

/-- A Unicode scalar value: a code point that is not a surrogate. -/
def IsScalar (c : Nat) : Prop :=
  c < 1114112 ∧ ¬(55296 ≤ c ∧ c ≤ 57343)

instance (c : Nat) : Decidable (IsScalar c) := by
  unfold IsScalar
  infer_instance

/-- A byte list holds valid UTF-8 iff it is the encoding of a sequence of
Unicode scalar values; this is the invariant Rust's `str` carries and that
`from_utf8_unchecked` requires. -/
def Utf8Valid (l : List Nat) : Prop :=
  ∃ cps : List Nat, (∀ c ∈ cps, IsScalar c) ∧ l = cps.flatMap utf8EncodeCp

/-! ### Helper lemmas -/

theorem find?_append_none {α : Type _} (p : α → Bool) (l₁ l₂ : List α)
    (h : ∀ x ∈ l₁, p x = false) :
    List.find? p (l₁ ++ l₂) = List.find? p l₂ := by
  induction l₁ with
  | nil => rfl
  | cons a l ih =>
    rw [List.cons_append, List.find?_cons, h a (by simp)]
    exact ih fun x hx => h x (by simp [hx])

theorem findPreferredSection_append_none (pre rest : List (List Char))
    (sections : List CourseSection)
    (h : ∀ q ∈ pre, ∀ t ∈ sections, sectionOpenMatch q t = false) :
    findPreferredSection (pre ++ rest) sections =
      findPreferredSection rest sections := by
  induction pre with
  | nil => rfl
  | cons q pre ih =>
    have hq : sections.find? (sectionOpenMatch q) = none :=
      List.find?_eq_none.mpr fun t ht => by
        simp [h q (by simp) t ht]
    rw [List.cons_append]
    show (match sections.find? (sectionOpenMatch q) with
          | some s => some s.section_id
          | none => findPreferredSection (pre ++ rest) sections)
        = findPreferredSection rest sections
    rw [hq]
    exact ih fun r hr => h r (by simp [hr])

theorem auto_select_decide_of_any_enrolled (sections : List CourseSection)
    (prefs : List (List Char))
    (hne : sections ≠ [])
    (hany : sections.any (enrolledMatch prefs) = true) :
    auto_select_decide sections prefs = .alreadyEnrolled := by
  unfold auto_select_decide
  rw [if_neg (by simp [List.isEmpty_iff, hne]), if_pos hany]

/-! ### Claim theorems -/

/-- C2 counterexample: the snapshot holds a single already-enrolled section
named "Sec-B" with free seats, and the preference list is ["B"].  The
section's name contains the preference entry (case-insensitively), so the
claim demands already-enrolled; the code instead chooses the section,
because its enrolled check asks whether the preference entry contains the
whole section name. -/
theorem C2_counterexample :
    auto_select_decide
        [⟨7, "Sec-B".toList, 30, 0, true, [], []⟩] ["B".toList]
      = Decision.sectionChosen 7 ∧
    auto_select_decide
        [⟨7, "Sec-B".toList, 30, 0, true, [], []⟩] ["B".toList]
      ≠ Decision.alreadyEnrolled := by
  constructor
  · rfl
  · decide

/-- C2 amended: if some section of the snapshot is marked already-enrolled
and some preference entry contains (case-insensitive substring) that
section's name, the selector returns already-enrolled, with priority over
choosing an open section, and the task terminates successfully without
submitting. -/
theorem C2_already_enrolled (info : CourseSections)
    (prefs : List (List Char)) (s : CourseSection) (p : List Char)
    (hs : s ∈ info.sections) (henr : s.is_enrolled = true) (hp : p ∈ prefs)
    (hmatch : strContains (toAsciiLowercase p)
        (toAsciiLowercase s.section_name) = true)
    (course_code : List Char)
    (submitRes : SectionActionRequest → Except (List Char) Unit)
    (rest : List (Except (List Char) CourseSections)) :
    auto_select_decide info.sections prefs = Decision.alreadyEnrolled ∧
    auto_select_section course_code prefs submitRes (.ok info :: rest)
      = ([Event.fetch], TaskOutcome.ok) := by
  have hdec : auto_select_decide info.sections prefs = .alreadyEnrolled := by
    refine auto_select_decide_of_any_enrolled _ _
      (List.ne_nil_of_mem hs) (List.any_eq_true.mpr ⟨s, hs, ?_⟩)
    simp only [enrolledMatch, henr, Bool.true_and, List.any_eq_true]
    exact ⟨p, hp, hmatch⟩
  refine ⟨hdec, ?_⟩
  simp only [auto_select_section, hdec]

/-- C2 witness: when the section name equals the preference entry the
amended check fires. -/
theorem C2_already_enrolled_witness :
    auto_select_decide
        [⟨9, "B".toList, 30, 0, true, [], []⟩] ["B".toList]
      = Decision.alreadyEnrolled ∧
    auto_select_section [] ["B".toList] (fun _ => .ok ())
        (.ok ⟨[], [], [⟨9, "B".toList, 30, 0, true, [], []⟩],
          true, [], 3, 0, 0⟩ :: [])
      = ([Event.fetch], TaskOutcome.ok) :=
  C2_already_enrolled
    ⟨[], [], [⟨9, "B".toList, 30, 0, true, [], []⟩], true, [], 3, 0, 0⟩
    ["B".toList] ⟨9, "B".toList, 30, 0, true, [], []⟩ "B".toList
    (by decide) (by decide) (by decide) (by decide) [] (fun _ => .ok ()) []

/-- C1: with no already-enrolled match, the selector returns the identifier
of the first section in snapshot order (`secPre` before `s`) whose name
contains (case-insensitively) the earliest-ranked preference string with
any open match (`pre` before `p`) and whose taken seats are strictly below
the total; earlier snapshot entries matching the same preference would have
been picked first (`hfirst`). -/
theorem C1_selector_first_choice (pre post : List (List Char)) (p : List Char)
    (secPre secPost : List CourseSection) (s : CourseSection)
    (hpre : ∀ q ∈ pre, ∀ t ∈ secPre ++ s :: secPost,
      sectionOpenMatch q t = false)
    (hfirst : ∀ t ∈ secPre, sectionOpenMatch p t = false)
    (hs : sectionOpenMatch p s = true)
    (henr : ∀ t ∈ secPre ++ s :: secPost,
      enrolledMatch (pre ++ p :: post) t = false) :
    auto_select_decide (secPre ++ s :: secPost) (pre ++ p :: post)
      = Decision.sectionChosen s.section_id := by
  have hne : secPre ++ s :: secPost ≠ [] := by simp
  have hany : (secPre ++ s :: secPost).any
      (enrolledMatch (pre ++ p :: post)) = false := by
    rw [List.any_eq_false]
    intro t ht
    simp [henr t ht]
  have hfind : findPreferredSection (pre ++ p :: post)
      (secPre ++ s :: secPost) = some s.section_id := by
    rw [findPreferredSection_append_none pre (p :: post) _ hpre]
    show (match (secPre ++ s :: secPost).find? (sectionOpenMatch p) with
          | some t => some t.section_id
          | none => findPreferredSection post (secPre ++ s :: secPost))
        = some s.section_id
    rw [find?_append_none _ secPre (s :: secPost) hfirst,
      List.find?_cons, hs]
  unfold auto_select_decide
  rw [if_neg (by simp [List.isEmpty_iff, hne]), hany, hfind]
  rfl

/-- C1 witness: the spec scenario — preferences ["B"], snapshot
[Sec-A full, Sec-B with free seats] — selects Sec-B's identifier. -/
theorem C1_selector_first_choice_witness :
    auto_select_decide
        [⟨1, "Sec-A".toList, 30, 30, false, [], []⟩,
         ⟨2, "Sec-B".toList, 30, 10, false, [], []⟩]
        ["B".toList]
      = Decision.sectionChosen 2 :=
  C1_selector_first_choice [] [] "B".toList
    [⟨1, "Sec-A".toList, 30, 30, false, [], []⟩] []
    ⟨2, "Sec-B".toList, 30, 10, false, [], []⟩
    (by decide) (by decide) (by decide) (by decide)

/-- C3 counterexample: on a snapshot with a free "Sec-B" and preference
["B"], the service rejects the submission, yet the task's result is
success — the submit error is only recorded in the logged event and never
becomes the Task Result. -/
theorem C3_counterexample :
    auto_select_section "1372-1-1".toList ["B".toList]
        (fun _ => .error "Course section action failed: seat taken".toList)
        [.ok ⟨"1372-1-1".toList, "Course".toList,
          [⟨2, "Sec-B".toList, 30, 10, false, [], []⟩], true, [], 3, 0, 0⟩]
      = ([Event.fetch,
          Event.submit ⟨2, "select".toList, "1372-1-1".toList⟩
            (.error "Course section action failed: seat taken".toList)],
         TaskOutcome.ok) ∧
    TaskOutcome.ok
      ≠ TaskOutcome.err "Course section action failed: seat taken".toList := by
  constructor
  · rfl
  · decide

/-- C3 amended: when a poll decides on a section, the task posts exactly one
selection request and terminates with success whatever the service
answers; a rejection is only logged in the submit event, it does not become
the task's failure. -/
theorem C3_submit_error_logged_only (course_code : List Char)
    (prefs : List (List Char))
    (submitRes : SectionActionRequest → Except (List Char) Unit)
    (info : CourseSections)
    (rest : List (Except (List Char) CourseSections)) (section_id : Nat)
    (hdec : auto_select_decide info.sections prefs
      = Decision.sectionChosen section_id) :
    auto_select_section course_code prefs submitRes (.ok info :: rest)
      = ([Event.fetch,
          Event.submit ⟨section_id, "select".toList, course_code⟩
            (submitRes ⟨section_id, "select".toList, course_code⟩)],
         TaskOutcome.ok) := by
  simp only [auto_select_section, hdec]

/-- C3 witness: a rejected submission still yields a successful task. -/
theorem C3_submit_error_logged_only_witness :
    auto_select_section [] ["B".toList] (fun _ => .error "rejected".toList)
        [.ok ⟨[], [], [⟨2, "Sec-B".toList, 30, 10, false, [], []⟩],
          true, [], 3, 0, 0⟩]
      = ([Event.fetch,
          Event.submit ⟨2, "select".toList, []⟩ (.error "rejected".toList)],
         TaskOutcome.ok) :=
  C3_submit_error_logged_only [] ["B".toList]
    (fun _ => .error "rejected".toList)
    ⟨[], [], [⟨2, "Sec-B".toList, 30, 10, false, [], []⟩], true, [], 3, 0, 0⟩
    [] 2 (by decide)

theorem eq_last_of_no_earlier {α : Type _} (p : α → Bool) (front : List α) :
    ∀ (a : α), (∀ x ∈ front, p x = false) →
    ∀ (xs ys : List α) (e : α), front ++ [a] = xs ++ e :: ys →
    p e = true → ys = [] := by
  induction front with
  | nil =>
    intro a _ xs ys e h he
    simp only [List.nil_append] at h
    cases xs with
    | nil =>
      injection h with h1 h2
      exact h2.symm
    | cons x xs =>
      injection h with h1 h2
      exact absurd h2.symm (by simp)
  | cons b front ih =>
    intro a hfront xs ys e h he
    simp only [List.cons_append, List.nil_append] at h
    cases xs with
    | nil =>
      injection h with h1 h2
      rw [← h1, hfront b (by simp)] at he
      cases he
    | cons x xs =>
      injection h with h1 h2
      exact ih a (fun y hy => hfront y (by simp [hy])) xs ys e h2 he

/-- Shape of a task's event list: either no submit event occurs at all, or
the event list ends in a single submit event and the task result is
success. -/
theorem auto_select_section_decomp (course_code : List Char)
    (prefs : List (List Char))
    (submitRes : SectionActionRequest → Except (List Char) Unit) :
    ∀ script : List (Except (List Char) CourseSections),
    (∀ e ∈ (auto_select_section course_code prefs submitRes script).1,
      isSubmitEvent e = false) ∨
    (∃ front req r,
      (auto_select_section course_code prefs submitRes script).1
        = front ++ [Event.submit req r] ∧
      (∀ e ∈ front, isSubmitEvent e = false) ∧
      (auto_select_section course_code prefs submitRes script).2
        = TaskOutcome.ok)
  | [] => by
    left
    simp [auto_select_section]
  | f :: rest => by
    cases f with
    | error e =>
      left
      simp [auto_select_section, isSubmitEvent]
    | ok info =>
      cases hdec : auto_select_decide info.sections prefs with
      | noSectionsYet =>
        rcases auto_select_section_decomp course_code prefs submitRes rest
          with hnone | ⟨front, req, r, hev, hfr, hout⟩
        · left
          simp only [auto_select_section, hdec]
          intro e he
          simp only [List.mem_cons] at he
          rcases he with rfl | rfl | he
          · rfl
          · rfl
          · exact hnone e he
        · right
          refine ⟨Event.fetch :: Event.sleepSecs 1 :: front, req, r, ?_, ?_, ?_⟩
          · simp only [auto_select_section, hdec, hev, List.cons_append]
          · intro e he
            simp only [List.mem_cons] at he
            rcases he with rfl | rfl | he
            · rfl
            · rfl
            · exact hfr e he
          · simp only [auto_select_section, hdec, hout]
      | alreadyEnrolled =>
        left
        simp only [auto_select_section, hdec]
        intro e he
        simp only [List.mem_cons, List.not_mem_nil, or_false] at he
        subst he
        rfl
      | sectionChosen section_id =>
        right
        refine ⟨[Event.fetch], ⟨section_id, "select".toList, course_code⟩,
          submitRes ⟨section_id, "select".toList, course_code⟩, ?_, ?_, ?_⟩
        · simp only [auto_select_section, hdec]
          rfl
        · intro e he
          simp only [List.mem_cons, List.not_mem_nil, or_false] at he
          subst he
          rfl
        · simp only [auto_select_section, hdec]
      | noAcceptable =>
        rcases auto_select_section_decomp course_code prefs submitRes rest
          with hnone | ⟨front, req, r, hev, hfr, hout⟩
        · left
          simp only [auto_select_section, hdec]
          intro e he
          simp only [List.mem_cons] at he
          rcases he with rfl | rfl | he
          · rfl
          · rfl
          · exact hnone e he
        · right
          refine ⟨Event.fetch :: Event.sleepSecs 10 :: front, req, r, ?_, ?_, ?_⟩
          · simp only [auto_select_section, hdec, hev, List.cons_append]
          · intro e he
            simp only [List.mem_cons] at he
            rcases he with rfl | rfl | he
            · rfl
            · rfl
            · exact hfr e he
          · simp only [auto_select_section, hdec, hout]

/-- C5: in any run of the task, at most one submission is attempted; a
submit event is always the last event of the run (nothing — no fetch, no
selection — follows it), and once a submission happened the task has
terminated, with success. -/
theorem C5_at_most_one_submission (course_code : List Char)
    (prefs : List (List Char))
    (submitRes : SectionActionRequest → Except (List Char) Unit)
    (script : List (Except (List Char) CourseSections)) :
    (auto_select_section course_code prefs submitRes script).1.countP
        isSubmitEvent ≤ 1 ∧
    (∀ xs ys (e : Event),
      (auto_select_section course_code prefs submitRes script).1
        = xs ++ e :: ys →
      isSubmitEvent e = true → ys = []) ∧
    (∀ e ∈ (auto_select_section course_code prefs submitRes script).1,
      isSubmitEvent e = true →
      (auto_select_section course_code prefs submitRes script).2
        = TaskOutcome.ok) := by
  rcases auto_select_section_decomp course_code prefs submitRes script
    with hnone | ⟨front, req, r, hev, hfr, hout⟩
  · have hzero : (auto_select_section course_code prefs submitRes
        script).1.countP isSubmitEvent = 0 :=
      List.countP_eq_zero.mpr fun e he => by simp [hnone e he]
    refine ⟨by omega, ?_, ?_⟩
    · intro xs ys e h he
      have : e ∈ (auto_select_section course_code prefs submitRes
          script).1 := by
        rw [h]; simp
      simp [hnone e this] at he
    · intro e he hs
      simp [hnone e he] at hs
  · refine ⟨?_, ?_, fun _ _ _ => hout⟩
    · rw [hev, List.countP_append,
        List.countP_eq_zero.mpr fun e he => by simp [hfr e he]]
      simp [List.countP, List.countP.go, isSubmitEvent]
    · intro xs ys e h he
      exact eq_last_of_no_earlier isSubmitEvent front _ hfr xs ys e
        (hev ▸ h) he

/-- C5 witness: a run that reaches a submission has exactly that submit
event as its final event. -/
theorem C5_at_most_one_submission_witness :
    (auto_select_section [] ["B".toList] (fun _ => .ok ())
        [.ok ⟨[], [], [⟨2, "Sec-B".toList, 30, 10, false, [], []⟩],
          true, [], 3, 0, 0⟩]).1.countP isSubmitEvent ≤ 1 ∧
    ([] : List Event) = [] :=
  ⟨(C5_at_most_one_submission [] ["B".toList] (fun _ => .ok ())
      [.ok ⟨[], [], [⟨2, "Sec-B".toList, 30, 10, false, [], []⟩],
        true, [], 3, 0, 0⟩]).1,
   (C5_at_most_one_submission [] ["B".toList] (fun _ => .ok ())
      [.ok ⟨[], [], [⟨2, "Sec-B".toList, 30, 10, false, [], []⟩],
        true, [], 3, 0, 0⟩]).2.1 [Event.fetch] []
      (Event.submit ⟨2, "select".toList, []⟩ (.ok ()))
      (by decide) (by decide)⟩

theorem auto_select_decide_nil (prefs : List (List Char)) :
    auto_select_decide [] prefs = Decision.noSectionsYet := rfl

/-- C6: a transient fetch result — an empty snapshot — makes the task sleep
one second and poll again, prepending those two events to the rest of the
run without changing its eventual result; in particular, a run all of whose
fetches come back empty is still polling, it has not failed. -/
theorem C6_transient_fetch (course_code : List Char)
    (prefs : List (List Char))
    (submitRes : SectionActionRequest → Except (List Char) Unit) :
    (∀ (info : CourseSections)
      (rest : List (Except (List Char) CourseSections)),
      info.sections = [] →
      auto_select_section course_code prefs submitRes (.ok info :: rest)
        = (Event.fetch :: Event.sleepSecs 1 ::
            (auto_select_section course_code prefs submitRes rest).1,
           (auto_select_section course_code prefs submitRes rest).2)) ∧
    (∀ infos : List CourseSections, (∀ info ∈ infos, info.sections = []) →
      (auto_select_section course_code prefs submitRes
          (infos.map Except.ok)).2 = TaskOutcome.running) := by
  have hstep : ∀ (info : CourseSections)
      (rest : List (Except (List Char) CourseSections)),
      info.sections = [] →
      auto_select_section course_code prefs submitRes (.ok info :: rest)
        = (Event.fetch :: Event.sleepSecs 1 ::
            (auto_select_section course_code prefs submitRes rest).1,
           (auto_select_section course_code prefs submitRes rest).2) := by
    intro info rest hinfo
    have hdec : auto_select_decide info.sections prefs
        = Decision.noSectionsYet := by
      rw [hinfo, auto_select_decide_nil]
    simp only [auto_select_section, hdec]
  refine ⟨hstep, ?_⟩
  intro infos hall
  induction infos with
  | nil => rfl
  | cons info infos ih =>
    rw [List.map_cons, hstep info _ (hall info (by simp))]
    exact ih fun i hi => hall i (by simp [hi])

/-- C6 witness: two empty snapshots in a row give two short waits and a
still-polling task. -/
theorem C6_transient_fetch_witness :
    (auto_select_section [] ["B".toList] (fun _ => .ok ())
        ([⟨[], [], [], true, [], 3, 0, 0⟩,
          ⟨[], [], [], true, [], 3, 0, 0⟩].map Except.ok)).2
      = TaskOutcome.running :=
  (C6_transient_fetch [] ["B".toList] (fun _ => .ok ())).2
    [⟨[], [], [], true, [], 3, 0, 0⟩, ⟨[], [], [], true, [], 3, 0, 0⟩]
    (by decide)

theorem findPreferredSection_eq_none (prefs : List (List Char))
    (sections : List CourseSection)
    (hopen : ∀ p ∈ prefs, ∀ s ∈ sections, sectionOpenMatch p s = false) :
    findPreferredSection prefs sections = none := by
  induction prefs with
  | nil => rfl
  | cons p rest ih =>
    show (match sections.find? (sectionOpenMatch p) with
          | some s => some s.section_id
          | none => findPreferredSection rest sections) = none
    rw [List.find?_eq_none.mpr fun s hs => by
      simp [hopen p (by simp) s hs]]
    exact ih fun q hq s hs => hopen q (by simp [hq]) s hs

theorem auto_select_decide_noAcceptable (sections : List CourseSection)
    (prefs : List (List Char)) (hne : sections ≠ [])
    (henr : ∀ s ∈ sections, enrolledMatch prefs s = false)
    (hopen : ∀ p ∈ prefs, ∀ s ∈ sections, sectionOpenMatch p s = false) :
    auto_select_decide sections prefs = Decision.noAcceptable := by
  unfold auto_select_decide
  rw [if_neg (by simp [List.isEmpty_iff, hne]),
    List.any_eq_false.mpr fun s hs => by simp [henr s hs],
    findPreferredSection_eq_none prefs sections hopen]
  simp

/-- No preference matches any open section in a snapshot: the snapshot is
non-empty, no section passes the enrolled check, and every (preference,
section) pair fails the open-match test. -/
def NoAcceptableSnapshot (prefs : List (List Char))
    (info : CourseSections) : Prop :=
  info.sections ≠ [] ∧
  (∀ s ∈ info.sections, enrolledMatch prefs s = false) ∧
  (∀ p ∈ prefs, ∀ s ∈ info.sections, sectionOpenMatch p s = false)

instance (prefs : List (List Char)) (info : CourseSections) :
    Decidable (NoAcceptableSnapshot prefs info) := by
  unfold NoAcceptableSnapshot
  infer_instance

/-- C7: on a snapshot where no preference matches any open section the task
does not submit — it sleeps ten seconds and polls again; and for a run of
any length all of whose snapshots are of that kind, the events are exactly
fetch/sleep-ten pairs (no submission, no failure) and the task is still
polling — there is no iteration cap. -/
theorem C7_no_acceptable_polls_forever (course_code : List Char)
    (prefs : List (List Char))
    (submitRes : SectionActionRequest → Except (List Char) Unit) :
    (∀ (info : CourseSections)
      (rest : List (Except (List Char) CourseSections)),
      NoAcceptableSnapshot prefs info →
      auto_select_section course_code prefs submitRes (.ok info :: rest)
        = (Event.fetch :: Event.sleepSecs 10 ::
            (auto_select_section course_code prefs submitRes rest).1,
           (auto_select_section course_code prefs submitRes rest).2)) ∧
    (∀ infos : List CourseSections,
      (∀ info ∈ infos, NoAcceptableSnapshot prefs info) →
      auto_select_section course_code prefs submitRes (infos.map Except.ok)
        = (infos.flatMap fun _ => [Event.fetch, Event.sleepSecs 10],
           TaskOutcome.running)) := by
  have hstep : ∀ (info : CourseSections)
      (rest : List (Except (List Char) CourseSections)),
      NoAcceptableSnapshot prefs info →
      auto_select_section course_code prefs submitRes (.ok info :: rest)
        = (Event.fetch :: Event.sleepSecs 10 ::
            (auto_select_section course_code prefs submitRes rest).1,
           (auto_select_section course_code prefs submitRes rest).2) := by
    intro info rest hinfo
    have hdec : auto_select_decide info.sections prefs
        = Decision.noAcceptable :=
      auto_select_decide_noAcceptable _ _ hinfo.1 hinfo.2.1 hinfo.2.2
    simp only [auto_select_section, hdec]
  refine ⟨hstep, ?_⟩
  intro infos hall
  induction infos with
  | nil => rfl
  | cons info infos ih =>
    rw [List.map_cons, hstep info _ (hall info (by simp)),
      ih fun i hi => hall i (by simp [hi])]
    simp

/-- C7 witness: the spec scenario — a single full "Sec-B" and preference
["B"] — polls twice with ten-second waits and is still running. -/
theorem C7_no_acceptable_polls_forever_witness :
    auto_select_section [] ["B".toList] (fun _ => .ok ())
        ([⟨[], [], [⟨2, "Sec-B".toList, 30, 30, false, [], []⟩],
            true, [], 3, 0, 0⟩,
          ⟨[], [], [⟨2, "Sec-B".toList, 30, 30, false, [], []⟩],
            true, [], 3, 0, 0⟩].map Except.ok)
      = (([⟨[], [], [⟨2, "Sec-B".toList, 30, 30, false, [], []⟩],
            true, [], 3, 0, 0⟩,
          ⟨[], [], [⟨2, "Sec-B".toList, 30, 30, false, [], []⟩],
            true, [], 3, 0, 0⟩] : List CourseSections).flatMap
           fun _ => [Event.fetch, Event.sleepSecs 10],
         TaskOutcome.running) :=
  (C7_no_acceptable_polls_forever [] ["B".toList] (fun _ => .ok ())).2
    [⟨[], [], [⟨2, "Sec-B".toList, 30, 30, false, [], []⟩],
        true, [], 3, 0, 0⟩,
     ⟨[], [], [⟨2, "Sec-B".toList, 30, 30, false, [], []⟩],
        true, [], 3, 0, 0⟩]
    (by decide)

theorem foldl_or_eq_any {α : Type _} (f : α → Bool) (l : List α) :
    ∀ b : Bool, l.foldl (fun acc r => acc || f r) b = (b || l.any f) := by
  induction l with
  | nil => intro b; simp
  | cons a l ih =>
    intro b
    rw [List.foldl_cons, ih (b || f a), List.any_cons, Bool.or_assoc]

/-- C4: after the joined tasks deliver their results, the restart flag is
set iff some failed task's error text contains "invalid token"
(case-insensitively); with a successful login and preadvised fetch the
cycle then loops back exactly when the flag is set and otherwise the
program ends normally. -/
theorem C4_restart_iff_invalid_token (env : CycleEnv) (rest : List CycleEnv)
    (hlogin : env.loginRes = Except.ok ())
    (courses : List (List Char))
    (hpre : env.preadvisedRes = Except.ok courses) :
    (shouldRestart env.taskResults = true ↔
      ∃ e, Except.error e ∈ env.taskResults ∧
        strContains (toAsciiLowercase e) invalidTokenPat = true) ∧
    runMain (env :: rest)
      = (if shouldRestart env.taskResults then runMain rest
         else MainOutcome.ok) := by
  constructor
  · rw [shouldRestart, foldl_or_eq_any, Bool.false_or, List.any_eq_true]
    constructor
    · rintro ⟨r, hr, hru⟩
      cases r with
      | error e => exact ⟨e, hr, hru⟩
      | ok u => simp [taskErrInvalidToken] at hru
    · rintro ⟨e, he, hst⟩
      exact ⟨Except.error e, he, hst⟩
  · simp only [runMain, hlogin, hpre]

/-- C4 witness: a single failed task whose error text contains
"Invalid Token" sets the restart flag, and the cycle loops. -/
theorem C4_restart_iff_invalid_token_witness :
    (shouldRestart [Except.error "Error: Invalid Token provided".toList]
        = true ↔
      ∃ e, Except.error e
          ∈ ([Except.error "Error: Invalid Token provided".toList] :
              List (Except (List Char) Unit)) ∧
        strContains (toAsciiLowercase e) invalidTokenPat = true) ∧
    runMain [(⟨Except.ok (), Except.ok [],
        [Except.error "Error: Invalid Token provided".toList]⟩ : CycleEnv)]
      = (if shouldRestart [Except.error "Error: Invalid Token provided".toList]
         then runMain [] else MainOutcome.ok) :=
  C4_restart_iff_invalid_token
    ⟨Except.ok (), Except.ok [],
      [Except.error "Error: Invalid Token provided".toList]⟩ []
    rfl [] rfl

/-- C8 counterexample: a cycle whose login succeeds but whose
preadvised-course fetch fails ends the whole process with that error —
an error that is not an AuthError on the cycle's login yet terminates the
process, contrary to the claim. -/
theorem C8_counterexample :
    runMain [(⟨Except.ok (),
        Except.error "Fetch preadvised courses failed".toList, []⟩ :
        CycleEnv)]
      = MainOutcome.fatal "Fetch preadvised courses failed".toList ∧
    (⟨Except.ok (), Except.error "Fetch preadvised courses failed".toList,
        []⟩ : CycleEnv).loginRes = Except.ok () := by
  constructor
  · rfl
  · rfl

/-- C8 amended: individual task errors never terminate the process — with
every cycle's login and preadvised fetch succeeding, the program either
ends normally or is still cycling, whatever the task results; the process
terminates with an error exactly when some cycle's login or
preadvised-course fetch fails with it. -/
theorem C8_task_errors_never_fatal :
    (∀ envs : List CycleEnv,
      (∀ env ∈ envs, env.loginRes = Except.ok () ∧
        ∃ cs, env.preadvisedRes = Except.ok cs) →
      runMain envs = MainOutcome.ok ∨ runMain envs = MainOutcome.running) ∧
    (∀ (envs : List CycleEnv) (e : List Char),
      runMain envs = MainOutcome.fatal e →
      ∃ env ∈ envs, env.loginRes = Except.error e ∨
        env.preadvisedRes = Except.error e) := by
  constructor
  · intro envs
    induction envs with
    | nil => intro _; right; rfl
    | cons env rest ih =>
      intro h
      obtain ⟨hlog, cs, hpre⟩ := h env (by simp)
      simp only [runMain, hlog, hpre]
      by_cases hres : shouldRestart env.taskResults
      · simpa [hres] using ih fun x hx => h x (by simp [hx])
      · simp [hres]
  · intro envs
    induction envs with
    | nil => intro e h; cases h
    | cons env rest ih =>
      intro e h
      rcases hlog : env.loginRes with el | u
      · rw [runMain, hlog] at h
        cases h
        exact ⟨env, by simp, Or.inl hlog⟩
      · rcases hpre : env.preadvisedRes with ep | cs
        · rw [runMain, hlog, hpre] at h
          cases h
          exact ⟨env, by simp, Or.inr hpre⟩
        · rw [runMain, hlog, hpre] at h
          by_cases hres : shouldRestart env.taskResults
          · rw [if_pos hres] at h
            obtain ⟨env2, henv2, hor⟩ := ih e h
            exact ⟨env2, by simp [henv2], hor⟩
          · rw [if_neg hres] at h
            cases h

/-- C8 witness: one restarting cycle followed by a clean one ends the
process normally even though a task failed. -/
theorem C8_task_errors_never_fatal_witness :
    runMain [(⟨Except.ok (), Except.ok [],
        [Except.error "invalid token".toList]⟩ : CycleEnv),
      ⟨Except.ok (), Except.ok [], []⟩]
      = MainOutcome.ok ∨
    runMain [(⟨Except.ok (), Except.ok [],
        [Except.error "invalid token".toList]⟩ : CycleEnv),
      ⟨Except.ok (), Except.ok [], []⟩]
      = MainOutcome.running :=
  C8_task_errors_never_fatal.1
    [⟨Except.ok (), Except.ok [], [Except.error "invalid token".toList]⟩,
     ⟨Except.ok (), Except.ok [], []⟩]
    (by
      intro env henv
      simp only [List.mem_cons, List.not_mem_nil, or_false] at henv
      rcases henv with rfl | rfl
      · exact ⟨rfl, [], rfl⟩
      · exact ⟨rfl, [], rfl⟩)

/-- Recogniser for a spawned task bound to a given course code. -/
def isSpawnFor (course_code : List Char) : SpawnAction → Bool
  | .spawnTask code _ => decide (code = course_code)
  | .skipLog _ => false

theorem spawnPlan_cons (prefMap : List (List Char × List (List Char)))
    (x : List Char) (courses : List (List Char)) :
    spawnPlan prefMap (x :: courses)
      = (if (lookupPreferred prefMap x).isEmpty then SpawnAction.skipLog x
         else SpawnAction.spawnTask x (lookupPreferred prefMap x))
        :: spawnPlan prefMap courses := rfl

/-- C9: a preadvised course whose code is absent from the preference map or
maps to an empty list contributes a skip-log line and no spawned task; any
other course contributes exactly one spawned task per occurrence in the
preadvised list (and no skip line), carrying its preference list. -/
theorem C9_spawn_or_skip (prefMap : List (List Char × List (List Char)))
    (courses : List (List Char)) (c : List Char) :
    (lookupPreferred prefMap c = [] →
      (spawnPlan prefMap courses).countP (isSpawnFor c) = 0 ∧
      (c ∈ courses → SpawnAction.skipLog c ∈ spawnPlan prefMap courses)) ∧
    (lookupPreferred prefMap c ≠ [] →
      (spawnPlan prefMap courses).countP (isSpawnFor c)
        = courses.countP (fun x => decide (x = c)) ∧
      SpawnAction.skipLog c ∉ spawnPlan prefMap courses ∧
      (c ∈ courses →
        SpawnAction.spawnTask c (lookupPreferred prefMap c)
          ∈ spawnPlan prefMap courses)) := by
  induction courses with
  | nil =>
    refine ⟨fun _ => ⟨rfl, by simp⟩, fun _ => ⟨rfl, by simp [spawnPlan], by simp⟩⟩
  | cons x courses ih =>
    constructor
    · intro hc
      obtain ⟨ihc, ihs⟩ := ih.1 hc
      by_cases hx : x = c
      · subst hx
        rw [spawnPlan_cons, if_pos (by simp [hc])]
        constructor
        · rw [List.countP_cons, ihc]
          simp [isSpawnFor]
        · intro _
          simp
      · rw [spawnPlan_cons]
        constructor
        · rw [List.countP_cons, ihc]
          by_cases hemp : (lookupPreferred prefMap x).isEmpty
          · simp [hemp, isSpawnFor]
          · simp [hemp, isSpawnFor, hx]
        · intro hmem
          rcases List.mem_cons.mp hmem with h | h
          · exact absurd h.symm hx
          · exact List.mem_cons_of_mem _ (ihs h)
    · intro hc
      obtain ⟨ihc, ihs, ihm⟩ := ih.2 hc
      by_cases hx : x = c
      · subst hx
        rw [spawnPlan_cons, if_neg (by simp [List.isEmpty_iff, hc])]
        refine ⟨?_, ?_, ?_⟩
        · rw [List.countP_cons, ihc, List.countP_cons]
          simp [isSpawnFor]
        · intro hmem
          rcases List.mem_cons.mp hmem with h | h
          · cases h
          · exact ihs h
        · intro _
          simp
      · rw [spawnPlan_cons]
        refine ⟨?_, ?_, ?_⟩
        · rw [List.countP_cons, ihc, List.countP_cons]
          by_cases hemp : (lookupPreferred prefMap x).isEmpty
          · simp [hemp, isSpawnFor, hx]
          · simp [hemp, isSpawnFor, hx]
        · intro hmem
          rcases List.mem_cons.mp hmem with h | h
          · by_cases hemp : (lookupPreferred prefMap x).isEmpty
            · rw [if_pos hemp] at h
              cases h
              exact hx rfl
            · rw [if_neg hemp] at h
              cases h
          · exact ihs h
        · intro hmem
          rcases List.mem_cons.mp hmem with h | h
          · subst h
            exact absurd rfl hx
          · exact List.mem_cons_of_mem _ (ihm h)

/-- C9 witness: with preferences only for "1372-1-1", the course
"CSE202" is skipped with a log line and spawns no task, while "1372-1-1"
spawns exactly one task carrying its preference list. -/
theorem C9_spawn_or_skip_witness :
    ((spawnPlan [("1372-1-1".toList, ["B".toList])]
        ["CSE202".toList, "1372-1-1".toList]).countP
      (isSpawnFor "CSE202".toList) = 0 ∧
    ("CSE202".toList ∈ ["CSE202".toList, "1372-1-1".toList] →
      SpawnAction.skipLog "CSE202".toList
        ∈ spawnPlan [("1372-1-1".toList, ["B".toList])]
            ["CSE202".toList, "1372-1-1".toList])) ∧
    ((spawnPlan [("1372-1-1".toList, ["B".toList])]
        ["CSE202".toList, "1372-1-1".toList]).countP
      (isSpawnFor "1372-1-1".toList)
        = ["CSE202".toList, "1372-1-1".toList].countP
            (fun x => decide (x = "1372-1-1".toList)) ∧
      SpawnAction.skipLog "1372-1-1".toList
        ∉ spawnPlan [("1372-1-1".toList, ["B".toList])]
            ["CSE202".toList, "1372-1-1".toList] ∧
      ("1372-1-1".toList ∈ ["CSE202".toList, "1372-1-1".toList] →
        SpawnAction.spawnTask "1372-1-1".toList
            (lookupPreferred [("1372-1-1".toList, ["B".toList])]
              "1372-1-1".toList)
          ∈ spawnPlan [("1372-1-1".toList, ["B".toList])]
              ["CSE202".toList, "1372-1-1".toList])) :=
  ⟨⟨((C9_spawn_or_skip [("1372-1-1".toList, ["B".toList])]
      ["CSE202".toList, "1372-1-1".toList] "CSE202".toList).1
      (by decide)).1,
    ((C9_spawn_or_skip [("1372-1-1".toList, ["B".toList])]
      ["CSE202".toList, "1372-1-1".toList] "CSE202".toList).1
      (by decide)).2⟩,
   (C9_spawn_or_skip [("1372-1-1".toList, ["B".toList])]
      ["CSE202".toList, "1372-1-1".toList] "1372-1-1".toList).2
      (by decide)⟩

theorem writeFrom_spec : ∀ (src bytes : List Nat) (start : Nat),
    start + src.length ≤ bytes.length →
    writeFrom bytes src start
      = some (bytes.take start ++ src ++ bytes.drop (start + src.length))
  | [], bytes, start, h => by
    simp [writeFrom, List.take_append_drop]
  | v :: rest, bytes, start, h => by
    have hlen : rest.length + 1 = (v :: rest).length := rfl
    have hlt : start < bytes.length := by
      rw [← hlen] at h
      omega
    have hset : setAt bytes start v = some (bytes.set start v) := by
      simp [setAt, hlt]
    show (match setAt bytes start v with
          | some b => writeFrom b rest (start + 1)
          | none => none)
        = some (bytes.take start ++ (v :: rest)
            ++ bytes.drop (start + (v :: rest).length))
    rw [hset]
    refine (writeFrom_spec rest (bytes.set start v) (start + 1)
      (by rw [List.length_set]; rw [← hlen] at h; omega)).trans ?_
    have hsp : bytes.set start v
        = bytes.take start ++ v :: bytes.drop (start + 1) :=
      List.set_eq_take_cons_drop v hlt
    have htl : (bytes.take start).length = start :=
      List.length_take_of_le (le_of_lt hlt)
    congr 1
    rw [hsp]
    have h1 : (bytes.take start ++ v :: bytes.drop (start + 1)).take
          (start + 1)
        = bytes.take start ++ [v] := by
      conv_lhs =>
        rw [show start + 1 = (bytes.take start).length + 1 by omega]
      rw [List.take_append]
      simp
    have h2 : (bytes.take start ++ v :: bytes.drop (start + 1)).drop
          (start + 1 + rest.length)
        = bytes.drop (start + (rest.length + 1)) := by
      conv_lhs =>
        rw [show start + 1 + rest.length
          = (bytes.take start).length + (1 + rest.length) by omega]
      rw [List.drop_append, show 1 + rest.length = rest.length + 1 by omega,
        List.drop_succ_cons, List.drop_drop]
      congr 1
      omega
    rw [h1, h2]
    simp [List.append_assoc]

/-- C10: `concat_sstr` — `concat_bytes` at the macro's
`LEN = a.len() + b.len()` — writes every byte in bounds and returns exactly
the concatenation of the two byte strings; consequently, when the two
inputs are valid UTF-8 (as the bytes of Rust `&str` constants are), the
produced bytes are valid UTF-8, so the macro's `from_utf8_unchecked` is
sound. -/
theorem C10_concat_sstr_sound (a b : List Nat) :
    concat_sstr a b = some (a ++ b) ∧
    (Utf8Valid a → Utf8Valid b → Utf8Valid (a ++ b)) := by
  constructor
  · have hW1 : writeFrom (List.replicate (a.length + b.length) 0) a 0
        = some (a ++ List.replicate b.length 0) := by
      rw [writeFrom_spec a (List.replicate (a.length + b.length) 0) 0
        (by simp)]
      congr 1
      simp [List.drop_replicate, Nat.add_sub_cancel_left]
    have hW2 : writeFrom (a ++ List.replicate b.length 0) b a.length
        = some (a ++ b) := by
      rw [writeFrom_spec b (a ++ List.replicate b.length 0) a.length
        (by simp)]
      have h2 : (a ++ List.replicate b.length 0).take a.length = a :=
        List.take_left a _
      have h3 : (a ++ List.replicate b.length 0).drop
          (a.length + b.length) = [] := by
        apply List.drop_eq_nil_of_le
        simp
      rw [h2, h3, List.append_nil]
    show (match writeFrom (List.replicate (a.length + b.length) 0) a 0 with
          | some bytes => writeFrom bytes b a.length
          | none => none) = some (a ++ b)
    rw [hW1]
    exact hW2
  · rintro ⟨ca, hca, rfl⟩ ⟨cb, hcb, rfl⟩
    refine ⟨ca ++ cb, ?_, ?_⟩
    · intro c hc
      rcases List.mem_append.mp hc with h | h
      · exact hca c h
      · exact hcb c h
    · rw [List.flatMap_append]

/-- C10 witness: the bytes of "A" and "B" concatenate to the bytes of
"AB", which are valid UTF-8. -/
theorem C10_concat_sstr_sound_witness :
    concat_sstr [65] [66] = some ([65] ++ [66]) ∧
    Utf8Valid ([65] ++ [66]) :=
  ⟨(C10_concat_sstr_sound [65] [66]).1,
   (C10_concat_sstr_sound [65] [66]).2
     ⟨[65], by decide, by decide⟩ ⟨[66], by decide, by decide⟩⟩

end UiuAutoSelect
